import Mathlib

/-!
Verification of `scripts/update_data.py`, the single script of this repository.

The script aggregates event listings from several public sources into one
JSON dataset.  We shallowly embed its pure logic over `List Char` (Python
strings are sequences of code points, and Python slicing, `in`, `len` all
operate on code points).  The external collaborators (HTTP transport,
BeautifulSoup anchor extraction, PyMuPDF text extraction, `urljoin`) are
modelled as an abstract environment `Env`, exactly at the interface the
script uses them.
-/

set_option maxRecDepth 4000

namespace UpdateData

/-! ## Text normalizer (`norm`, line 206-207)

`norm(s) = re.sub(r"\s+", " ", (s or "").strip())`: strip leading and
trailing whitespace, then replace every maximal run of whitespace by a
single space.  `isWS` models Python's whitespace class on the characters
that can occur here (the regexes and `str.strip` agree on it). -/

def isWS (c : Char) : Bool :=
  c = ' ' || c = '\t' || c = '\n' || c = '\r' || c = '\x0b' || c = '\x0c'

/-- Drop trailing whitespace (the right half of `str.strip`). -/
def dropTrailWS : List Char → List Char
  | [] => []
  | c :: rest =>
    match dropTrailWS rest with
    | [] => if isWS c then [] else [c]
    | r => c :: r

/-- `re.sub(r"\s+", " ", s)`: the `Bool` argument records whether the
previous character was part of a whitespace run already replaced. -/
def collapseAux : Bool → List Char → List Char
  | _, [] => []
  | prevWS, c :: rest =>
    if isWS c then
      if prevWS then collapseAux true rest
      else ' ' :: collapseAux true rest
    else c :: collapseAux false rest

/-- `norm` of the script: strip both ends, then collapse whitespace runs. -/
def norm (s : List Char) : List Char :=
  collapseAux false (dropTrailWS (s.dropWhile isWS))

/-- `norm` applied to a possibly-`None` argument (`(s or "")`). -/
def normOpt (s : Option (List Char)) : List Char :=
  norm (s.getD [])

/-! ## Content filter (`looks_bad`, lines 209-216) -/

/-- Python `needle in hay` on strings. -/
def containsSub (n : List Char) : List Char → Bool
  | [] => n.isEmpty
  | c :: rest => n.isPrefixOf (c :: rest) || containsSub n rest

def BAD_KEYWORDS : List (List Char) :=
  ["探店".data, "网红".data, "出片".data, "约拍".data, "拍照打卡".data,
   "打卡地".data, "打卡点".data, "团购".data, "双人特惠".data, "必打卡".data,
   "种草".data, "咖啡探店".data]

def SOFT_BAD_KEYWORDS : List (List Char) := ["约会".data, "情侣".data]

/-- `looks_bad` translated clause by clause, including the inner branch on
soft keywords (which re-tests the hard-keyword condition). -/
def looks_bad (title : List Char) : Bool :=
  let t := norm title
  if BAD_KEYWORDS.any (fun k => containsSub k t) then
    if (SOFT_BAD_KEYWORDS.any (fun k => containsSub k t))
        && !(BAD_KEYWORDS.any (fun k => containsSub k t)) then
      false
    else
      true
  else
    false

/-- Whether the (already normalized) text contains a hard-reject keyword. -/
def hasHardKw (t : List Char) : Bool :=
  BAD_KEYWORDS.any (fun k => containsSub k t)

/-- Whether the (already normalized) text contains a soft keyword. -/
def hasSoftKw (t : List Char) : Bool :=
  SOFT_BAD_KEYWORDS.any (fun k => containsSub k t)

/-! ### Normalized-form predicate (used to state what `norm` guarantees) -/

/-- Every whitespace character is a plain space. -/
def allSpaceWS (l : List Char) : Bool :=
  l.all (fun c => !isWS c || c = ' ')

/-- The first character, if any, is not whitespace. -/
def noLeadWS : List Char → Bool
  | [] => true
  | c :: _ => !isWS c

/-- The last character, if any, is not whitespace. -/
def noTrailWS : List Char → Bool
  | [] => true
  | [c] => !isWS c
  | _ :: c :: rest => noTrailWS (c :: rest)

/-- No two adjacent whitespace characters. -/
def noDoubleWS : List Char → Bool
  | a :: b :: rest => !(isWS a && isWS b) && noDoubleWS (b :: rest)
  | _ => true

/-- Fully normalized: single interior spaces, trimmed at both ends. -/
def normalizedB (l : List Char) : Bool :=
  allSpaceWS l && noLeadWS l && noDoubleWS l && noTrailWS l

/-! ## Regex models

The script uses four regular expressions on text spans.  Each is embedded
as a matcher at a position plus a leftmost-position search, mirroring
Python's leftmost-then-greedy `re.search` semantics.  Greedy `\s*` runs
are taken maximally; this is exact because in each pattern the character
class following a `\s*` is either disjoint from whitespace or, in the one
case it is not (the location capture), the backtracking is spelled out
explicitly. -/

/-- Length of the leading whitespace run, and the rest (greedy matching of
a single `\s*`). -/
def wsRun (s : List Char) : Nat × List Char :=
  ((s.takeWhile isWS).length, s.dropWhile isWS)

/-- Greedy `X{1,2}` over a character class, with backtracking into the
continuation `k` (two characters tried first, then one). -/
def rep12 (p : Char → Bool) (k : List Char → Option (Nat × List Char)) :
    List Char → Option (Nat × List Char)
  | [] => none
  | [a] => if p a then (k []).map (fun r => (r.1 + 1, r.2)) else none
  | a :: b :: rest =>
    if p a then
      if p b then
        ((k rest).map (fun r => (r.1 + 2, r.2)))
          <|> ((k (b :: rest)).map (fun r => (r.1 + 1, r.2)))
      else (k (b :: rest)).map (fun r => (r.1 + 1, r.2))
    else none

/-- The class `[月/.-]` of `date_pat`. -/
def dateSepCls (c : Char) : Bool := c = '月' || c = '/' || c = '.' || c = '-'

/-- Tail `\s*(日)?` of `date_pat`: always succeeds, greedily. -/
def dateDayTail (s : List Char) : Nat × List Char :=
  let w := wsRun s
  match w.2 with
  | d :: s7 => if d = '日' then (w.1 + 1, s7) else (w.1, w.2)
  | [] => (w.1, [])

/-- `\s*[月/.-]\s*\d{1,2}\s*(日)?`, the part of `date_pat` after the month
digits. -/
def dateFromSep (s : List Char) : Option (Nat × List Char) :=
  let w := wsRun s
  match w.2 with
  | [] => none
  | c :: s3 =>
    if dateSepCls c then
      let w2 := wsRun s3
      (rep12 Char.isDigit (fun s5 => some (dateDayTail s5)) w2.2).map
        (fun p => (w.1 + 1 + w2.1 + p.1, p.2))
    else none

/-- `\s*\d{1,2}` followed by `dateFromSep` (the pattern after the optional
year group). -/
def dateAfterYear (s : List Char) : Option (Nat × List Char) :=
  let w := wsRun s
  (rep12 Char.isDigit dateFromSep w.2).map (fun p => (w.1 + p.1, p.2))

/-- Full `date_pat = (\d{4}年)?\s*\d{1,2}\s*[月/.-]\s*\d{1,2}\s*(日)?` at one
position; returns the length of the (greedy) match. -/
def dateMatchAt (s : List Char) : Option Nat :=
  (match s with
   | a :: b :: c :: d :: e :: rest =>
     if a.isDigit && b.isDigit && c.isDigit && d.isDigit && e = '年' then
       (dateAfterYear rest).map (fun p => 5 + p.1)
     else none
   | _ => none)
  <|> (dateAfterYear s).map (fun p => p.1)

/-- Leftmost-position search; returns `group(0)` of the first match. -/
def reSearchAux (matchAt : List Char → Option Nat) : List Char → Option (List Char)
  | [] =>
    match matchAt [] with
    | some _ => some []
    | none => none
  | c :: rest =>
    match matchAt (c :: rest) with
    | some n => some ((c :: rest).take n)
    | none => reSearchAux matchAt rest

/-- `date_pat.search(s)`, as `group(0)` of the first match. -/
def dateSearch (s : List Char) : Option (List Char) := reSearchAux dateMatchAt s

/-- The dash class `[-~—–]` of `time_pat`. -/
def dashCls (c : Char) : Bool := c = '-' || c = '~' || c = '—' || c = '–'

/-- `\d{1,2}:\d{2}` followed by continuation `k`. -/
def hhmm (k : List Char → Option (Nat × List Char)) (s : List Char) :
    Option (Nat × List Char) :=
  rep12 Char.isDigit (fun s1 =>
    match s1 with
    | ':' :: a :: b :: s2 =>
      if a.isDigit && b.isDigit then (k s2).map (fun p => (3 + p.1, p.2)) else none
    | _ => none) s

/-- Full `time_pat = (\d{1,2}:\d{2})\s*[-~—–]\s*(\d{1,2}:\d{2})` at one
position. -/
def timeMatchAt (s : List Char) : Option Nat :=
  (hhmm (fun s2 =>
    let w := wsRun s2
    match w.2 with
    | c :: s3 =>
      if dashCls c then
        let w2 := wsRun s3
        (hhmm (fun s4 => some (0, s4)) w2.2).map
          (fun p => (w.1 + 1 + w2.1 + p.1, p.2))
      else none
    | [] => none) s).map (fun p => p.1)

/-- `time_pat.search(s)`, as `group(0)` of the first match. -/
def timeSearch (s : List Char) : Option (List Char) := reSearchAux timeMatchAt s

/-- The terminator class of the location capture (`[^。；;]` complements it). -/
def locTermCls (c : Char) : Bool := c = '。' || c = '；' || c = ';'

/-- `\s*([^。；;]{4,40})` after the colon, trying the whitespace run from
`k` characters (greedy) down to zero; whitespace freed by backtracking is
re-consumed by the capture class, exactly as in Python. -/
def locAfterColon (s : List Char) : Nat → Option (List Char)
  | 0 =>
    let t := s.takeWhile (fun c => !locTermCls c)
    if 4 ≤ t.length then some (t.take 40) else none
  | k + 1 =>
    let t := (s.drop (k + 1)).takeWhile (fun c => !locTermCls c)
    if 4 ≤ t.length then some (t.take 40) else locAfterColon s k

/-- `(地点|地址|场馆)[:：]\s*([^。；;]{4,40})` at one position; returns
`group(2)`. -/
def locMatchAt (s : List Char) : Option (List Char) :=
  match s with
  | a :: b :: c :: rest =>
    if ((a = '地' && b = '点') || (a = '地' && b = '址') || (a = '场' && b = '馆'))
        && (c = ':' || c = '：') then
      locAfterColon rest ((rest.takeWhile isWS).length)
    else none
  | _ => none

/-- Leftmost search for the location pattern, yielding `group(2)`. -/
def locSearch : List Char → Option (List Char)
  | [] => none
  | c :: rest => (locMatchAt (c :: rest)) <|> locSearch rest

/-! ## Price guess (`guess_cost`, lines 218-229)

`re.search(r"([¥￥]?\s*\d+(\.\d+)?)\s*元", text)` followed by
`float(re.sub(r"[^\d.]", "", m.group(1)))`: the sub strips the currency
sign and spaces, so the float value is exactly the matched decimal
number, modelled as a rational. -/

/-- Value of a digit run, most significant first. -/
def digitsVal (l : List Char) : Nat :=
  l.foldl (fun acc c => acc * 10 + (c.toNat - '0'.toNat)) 0

/-- `\d+(\.\d+)?` (maximal munch) and its decimal value. -/
def priceCore (s : List Char) : Option (ℚ × List Char) :=
  let ds := s.takeWhile Char.isDigit
  let r := s.dropWhile Char.isDigit
  if ds.isEmpty then none
  else
    match r with
    | '.' :: r2 =>
      let fs := r2.takeWhile Char.isDigit
      if fs.isEmpty then some ((digitsVal ds : ℚ), r)
      else some ((digitsVal ds : ℚ) + (digitsVal fs : ℚ) / ((10 : ℚ) ^ fs.length),
                 r2.dropWhile Char.isDigit)
    | _ => some ((digitsVal ds : ℚ), r)

/-- The price pattern at one position, returning the numeric value. -/
def priceMatchAt (s : List Char) : Option ℚ :=
  let s1 := match s with
            | c :: rest => if c = '¥' || c = '￥' then rest else c :: rest
            | [] => []
  let s2 := s1.dropWhile isWS
  match priceCore s2 with
  | none => none
  | some (v, r) =>
    match r.dropWhile isWS with
    | '元' :: _ => some v
    | _ => none

/-- Leftmost search for the price pattern. -/
def priceSearch : List Char → Option ℚ
  | [] => none
  | c :: rest => (priceMatchAt (c :: rest)) <|> priceSearch rest

/-- `guess_cost`: price → cost bucket, default "mid".  (The `except`
branch of the Python code is unreachable: the cleaned group is always a
well-formed decimal literal.) -/
def guess_cost (text : List Char) : List Char :=
  match priceSearch text with
  | none => "mid".data
  | some v =>
    if v ≤ 60 then "low".data
    else if v ≤ 160 then "mid".data
    else "high".data

/-! ## Canonical items (`make_item`, lines 231-258)

Typed view of the dictionaries the script passes around.  Every adapter
builds items through `make_item`, whose keyword table fixes exactly these
fields; the typed record mirrors that table, and each adapter's
`make_item(...)` call is translated to a record update of `defaultItem`
with precisely the keyword arguments it passes.  (The raw, untyped
dictionary view of `make_item` is modelled separately below for the
builder claims.) -/

structure WFit where
  rain : Bool
  sun : Bool
  cold : Bool
deriving DecidableEq, Repr

structure SFit where
  spring : Bool
  summer : Bool
  autumn : Bool
  winter : Bool
deriving DecidableEq, Repr

structure Item where
  type : List Char
  name : List Char
  area : List Char
  date : List Char
  timeHint : List Char
  cost : List Char
  reservation : List Char
  tags : List (List Char)
  transitEase : Int
  transferComplexity : Int
  timeMin : Int
  intensity : List Char
  crowdRisk : Int
  checkin : Int
  weatherFit : WFit
  seasonFit : SFit
  mosquito : Int
  toiletSupply : Int
  lighting : Int
  openHoursHint : List Char
  notes : List Char
  link : List Char
  source : List Char
deriving DecidableEq, Repr

/-- The default table of `make_item`. -/
def defaultItem : Item :=
  { type := "event".data
    name := []
    area := "广州".data
    date := []
    timeHint := []
    cost := "mid".data
    reservation := "maybe".data
    tags := []
    transitEase := 3
    transferComplexity := 3
    timeMin := 80
    intensity := "low".data
    crowdRisk := 3
    checkin := 2
    weatherFit := { rain := true, sun := true, cold := true }
    seasonFit := { spring := true, summer := true, autumn := true, winter := true }
    mosquito := 1
    toiletSupply := 3
    lighting := 4
    openHoursHint := "以官方公告/详情页为准".data
    notes := []
    link := []
    source := "unknown".data }

/-! ## Bulletin segmentation (`split_events_from_pdf_text`, lines 105-201) -/

/-- `str.splitlines` worker: accumulate the current line (reversed). -/
def splitLinesAux (cur : List Char) : List Char → List (List Char)
  | [] => [cur.reverse]
  | c :: rest =>
    if c = '\n' then cur.reverse :: splitLinesAux [] rest
    else splitLinesAux (c :: cur) rest

/-- Drop the final empty line produced when the text ends in a newline
(Python's `splitlines` yields no trailing empty string). -/
def dropLastNil : List (List Char) → List (List Char)
  | [] => []
  | [l] => if l.isEmpty then [] else [l]
  | l :: l2 :: rest => l :: dropLastNil (l2 :: rest)

/-- `str.splitlines` on newline-separated text (the only line terminator
occurring in the extracted PDF text, which is joined with `"\n"`). -/
def splitLines (s : List Char) : List (List Char) :=
  if s.isEmpty then [] else dropLastNil (splitLinesAux [] s)

/-- `" ".join(buf_lines)`. -/
def joinSpace : List (List Char) → List Char
  | [] => []
  | [l] => l
  | l :: l2 :: rest => l ++ ' ' :: joinSpace (l2 :: rest)

/-- `block.split("：", 1)[1]`: everything after the first occurrence. -/
def afterFirst (c : Char) : List Char → List Char
  | [] => []
  | a :: rest => if a = c then rest else afterFirst c rest

/-- The tag classification of a flushed block (lines 156-161): baseline
provenance tags plus keyword families, appended in program order. -/
def pdfTags (block : List Char) : List (List Char) :=
  let t0 := ["官方清单".data, "PDF解析".data]
  let t1 := if containsSub ("展".data) block || containsSub ("展览".data) block
            then t0 ++ ["展览".data] else t0
  let t2 := if containsSub ("音乐".data) block || containsSub ("演唱".data) block
              || containsSub ("音乐会".data) block
            then t1 ++ ["音乐".data] else t1
  let t3 := if containsSub ("戏剧".data) block || containsSub ("话剧".data) block
              || containsSub ("舞台".data) block
            then t2 ++ ["戏剧".data] else t2
  let t4 := if containsSub ("亲子".data) block || containsSub ("儿童".data) block
            then t3 ++ ["亲子".data] else t3
  if (["花".data, "花期".data, "赏花".data, "梅".data, "荷".data, "樱".data]).any
      (fun k => containsSub k block)
  then t4 ++ ["看花".data] else t4

/-- The item built for one flushed block (the `make_item(...)` call at
lines 163-179). -/
def pdfItem (name area date_hint time_hint : List Char) (tags : List (List Char))
    (block source_pdf : List Char) : Item :=
  { defaultItem with
    name := name
    area := area
    date := norm date_hint
    timeHint := norm time_hint
    cost := "low".data
    tags := tags
    timeMin := 80
    checkin := 1
    openHoursHint := "以PDF清单/对应活动页面为准（可能需要预约/购票）".data
    notes := block.take 220
    link := source_pdf
    source := "wglj.gz.gov.cn/pdf".data }

/-- `flush_buf`: zero or one item from the buffered lines. -/
def flushItems (source_pdf : List Char) (buf : List (List Char)) : List Item :=
  if buf.isEmpty then []
  else
    let block := joinSpace buf
    if block.length < 12 then []
    else
      let time_hint := (timeSearch block).getD []
      let date_hint := (dateSearch block).getD []
      let area := match locSearch block with
                  | some g => norm g
                  | none => "广州（见PDF）".data
      let name0 := block.take 40
      let name1 := if containsSub ("：".data) (block.take 30)
                   then (afterFirst '：' block).take 40 else name0
      let name := norm name1
      if looks_bad name then []
      else [pdfItem name area date_hint time_hint (pdfTags block) block source_pdf]

/-- One step of the line loop (lines 182-198): date-anchored block
segmentation with a forced flush at six buffered lines. -/
def segStep (source_pdf : List Char) (st : List Item × List (List Char))
    (ln : List Char) : List Item × List (List Char) :=
  let next :=
    if (dateSearch ln).isSome then (st.1 ++ flushItems source_pdf st.2, [ln])
    else if !st.2.isEmpty then (st.1, st.2 ++ [ln])
    else if 10 < ln.length then (st.1, [ln])
    else (st.1, st.2)
  if 6 ≤ next.2.length then (next.1 ++ flushItems source_pdf next.2, [])
  else next

/-- `split_events_from_pdf_text`. -/
def split_events_from_pdf_text (pdf_text source_pdf : List Char) : List Item :=
  let lines := ((splitLines pdf_text).map norm).filter (fun x => 4 ≤ x.length)
  let st := lines.foldl (segStep source_pdf) ([], [])
  st.1 ++ flushItems source_pdf st.2

/-! ## External collaborators

HTTP transport, BeautifulSoup (`select("a")` with `get_text`/`href`),
PyMuPDF text extraction and `urllib.parse.urljoin` are external to the
design (spec §1); they enter the model as an abstract environment.  A
`none` from a fetch models a raised transport/decode error (the only
observable effect of `requests`/`fitz` failures at the call sites, which
all sit inside `try`/`except`). -/

structure Anchor where
  text : List Char
  href : List Char
deriving DecidableEq, Repr

structure Page where
  raw : List Char
  anchors : List Anchor
deriving DecidableEq, Repr

structure Env where
  /-- `http_get(url)` + `BeautifulSoup(html).select("a")`; `none` = raise. -/
  fetchHtml : List Char → Option Page
  /-- `http_get_bytes(url)` + `extract_pdf_text(..., max_pages=12)`; `none` = raise. -/
  fetchPdfText : List Char → Option (List Char)
  /-- `urllib.parse.urljoin`. -/
  urljoin : List Char → List Char → List Char
  /-- `now_cn_iso()`. -/
  now : List Char

/-! ## Source URLs (lines 23-38, literal values, including the truncated
`"s://"` museum constants exactly as written in the source) -/

def WGLJ_SCHEDULE_INDEX : List Char :=
  "https://wglj.gz.gov.cn/ztmb/gzhyn/hdpq/mindex.html".data

def DOUBAN_BASE : List Char := "https://guangzhou.douban.com/events/".data

def DOUBAN_PAGES : List (List Char × List Char) :=
  [("douban/week-all".data, DOUBAN_BASE ++ "week-all".data),
   ("douban/week-music".data, DOUBAN_BASE ++ "week-music".data),
   ("douban/week-drama".data, DOUBAN_BASE ++ "week-drama".data),
   ("douban/week-exhibition".data, DOUBAN_BASE ++ "week-exhibition".data),
   ("douban/week-course".data, DOUBAN_BASE ++ "week-course".data)]

def GDMUSEUM_HOME : List Char := "s://www.gdmuseum.com/".data

def GDMUSEUM_ACTIVITY_LIST : List Char := "s://www.gdmuseum.com/col108/list".data

def GZMUSEUM_EXHIBITION_LIST : List Char :=
  "s://www.guangzhoumuseum.cn/website_cn/Web/Exhibition/Exhibition.aspx".data

def GZMUSEUM_EXHIBITION_PRE : List Char :=
  "s://www.guangzhoumuseum.cn/website_cn/Web/Dynamic/Exhibition.aspx".data

/-! ## WGLJ adapter (`parse_wglj_schedule_index`, lines 261-326, with the
PDF block at lines 296-321 read at its evidently intended indentation
inside the anchor loop) -/

/-- `str.strip`. -/
def stripWS (s : List Char) : List Char := dropTrailWS (s.dropWhile isWS)

/-- ASCII `str.lower` (hrefs are ASCII at the `.lower()` call sites). -/
def asciiLower (l : List Char) : List Char :=
  l.map (fun c => if 'A' ≤ c && c ≤ 'Z' then Char.ofNat (c.toNat + 32) else c)

def endsWithStr (suf l : List Char) : Bool := suf.isSuffixOf l

/-- Keep-first dedup of a string list (the `seen` set in
`find_pdf_links_in_page`). -/
def dedupeStrsAux (seen : List (List Char)) : List (List Char) → List (List Char)
  | [] => []
  | u :: rest =>
    if seen.contains u then dedupeStrsAux seen rest
    else u :: dedupeStrsAux (u :: seen) rest

/-- The anchor scan of `find_pdf_links_in_page` (lines 83-93). -/
def collectPdfLinks (env : Env) (page_url : List Char) : List Anchor → List (List Char)
  | [] => []
  | a :: rest =>
    let href := stripWS a.href
    if href.isEmpty then collectPdfLinks env page_url rest
    else
      let lo := asciiLower href
      if endsWithStr (".pdf".data) lo || containsSub (".pdf?".data) lo then
        env.urljoin page_url href :: collectPdfLinks env page_url rest
      else if containsSub ("download".data) lo || containsSub ("attach".data) lo
          || containsSub ("附件".data) lo || containsSub ("file".data) lo then
        env.urljoin page_url href :: collectPdfLinks env page_url rest
      else collectPdfLinks env page_url rest

/-- `find_pdf_links_in_page`; `none` when the page fetch raises. -/
def find_pdf_links_in_page (env : Env) (page_url : List Char) :
    Option (List (List Char)) :=
  (env.fetchHtml page_url).map
    (fun p => dedupeStrsAux [] (collectPdfLinks env page_url p.anchors))

/-- The index entry built at lines 281-295 — note: no `looks_bad` check. -/
def wgljItem (title href : List Char) : Item :=
  { defaultItem with
    name := title
    area := "广州（全市）".data
    cost := "low".data
    tags := ["官方资讯".data, "活动清单".data]
    timeMin := 75
    checkin := 1
    openHoursHint := "打开来源页查看附件/具体活动".data
    notes := "来自广州市文旅局活动排期索引，可用来挑本周/本月节目与展览。".data
    link := href
    source := "wglj.gz.gov.cn/hdpq".data }

/-- The per-entry PDF follow-through (lines 296-321): fetch the entry
page, find up to three PDFs, extract and segment each; every failure is
caught and contributes nothing. -/
def wgljPdfItems (env : Env) (href : List Char) : List Item :=
  match find_pdf_links_in_page env href with
  | none => []
  | some pdfs =>
    (pdfs.take 3).foldr
      (fun pdf_url acc =>
        (match env.fetchPdfText pdf_url with
         | none => []
         | some text =>
           if (norm text).length < 80 then []
           else split_events_from_pdf_text text pdf_url) ++ acc) []

/-- The anchor loop of `parse_wglj_schedule_index`. -/
def wgljLoop (env : Env) (limit : Nat) (items : List Item) : List Anchor → List Item
  | [] => items
  | a :: rest =>
    let title := norm a.text
    let href0 := a.href
    if title.isEmpty || href0.isEmpty then wgljLoop env limit items rest
    else if !(containsSub ("活动".data) title || containsSub ("排期".data) title
        || containsSub ("精选".data) title) then wgljLoop env limit items rest
    else
      let href := if href0.head? = some '/' then "https://wglj.gz.gov.cn".data ++ href0
                  else href0
      if !(("http".data).isPrefixOf href) then wgljLoop env limit items rest
      else
        let items2 := items ++ [wgljItem title href] ++ wgljPdfItems env href
        if limit ≤ items2.length then items2 else wgljLoop env limit items2 rest

/-- `parse_wglj_schedule_index`. -/
def parse_wglj_schedule_index (env : Env) (limit : Nat) : List Item :=
  match env.fetchHtml WGLJ_SCHEDULE_INDEX with
  | none => []
  | some p => wgljLoop env limit [] p.anchors

/-! ## Douban adapter (`extract_douban_event_links` and
`parse_douban_list`, lines 329-398) -/

/-- `re.search(r"/event/\d+", href)` at one position. -/
def eventPathAt : List Char → Bool
  | '/' :: 'e' :: 'v' :: 'e' :: 'n' :: 't' :: '/' :: c :: _ => c.isDigit
  | _ => false

/-- `re.search(r"/event/\d+", href)` as a Boolean. -/
def hasEventPath : List Char → Bool
  | [] => false
  | c :: rest => eventPathAt (c :: rest) || hasEventPath rest

/-- The link-shape test of `extract_douban_event_links` (line 340). -/
def doubanPairCond (href : List Char) : Bool :=
  containsSub ("douban.com/event/".data) href || hasEventPath href

/-- The anchor scan producing `(text, href)` pairs. -/
def extractPairsAux : List Anchor → List (List Char × List Char)
  | [] => []
  | a :: rest =>
    let text := norm a.text
    if text.isEmpty then extractPairsAux rest
    else if doubanPairCond a.href then (text, a.href) :: extractPairsAux rest
    else extractPairsAux rest

/-- Keep-first dedup of `(title, href)` pairs (lines 344-351). -/
def dedupePairsAux (seen : List (List Char × List Char)) :
    List (List Char × List Char) → List (List Char × List Char)
  | [] => []
  | p :: rest =>
    if seen.contains p then dedupePairsAux seen rest
    else p :: dedupePairsAux (p :: seen) rest

/-- `extract_douban_event_links`. -/
def extract_douban_event_links (anchors : List Anchor) :
    List (List Char × List Char) :=
  dedupePairsAux [] (extractPairsAux anchors)

/-- The item built at lines 380-396.  `cost` is the constant `"mid"`
assigned at line 375; the `"免费" in html` conditional at lines 376-378
has an empty body (`pass`) and never changes it. -/
def doubanItem (category_name title href : List Char) : Item :=
  { defaultItem with
    name := title
    area := "广州（见详情）".data
    cost := "mid".data
    tags := ["同城活动".data, category_name]
    timeMin := 85
    checkin := 2
    openHoursHint := "以活动详情页为准（可能需购票/预约）".data
    notes := "来自豆瓣同城列表，用于补充当周可去的演出/展览/活动。".data
    link := href
    source := category_name }

/-- The per-page pair loop with its `looks_bad` fail-fast. -/
def doubanPageItems (cat : List Char) : List (List Char × List Char) → List Item
  | [] => []
  | (t, h) :: rest =>
    if looks_bad t then doubanPageItems cat rest
    else doubanItem cat t h :: doubanPageItems cat rest

/-- `str(start)` for the pagination offset. -/
def natChars (n : Nat) : List Char := Nat.toDigits 10 n

/-- The page URL: `base_url if start == 0 else f"{base_url}?start={start}"`. -/
def doubanUrl (base : List Char) (start : Nat) : List Char :=
  if start = 0 then base else base ++ "?start=".data ++ natChars start

/-- The pagination loop; a failed fetch is caught (`continue`) and the
page contributes nothing. -/
def doubanLoop (env : Env) (cat base : List Char) (step : Nat) :
    Nat → Nat → List Item
  | _, 0 => []
  | i, n + 1 =>
    (match env.fetchHtml (doubanUrl base (i * step)) with
     | none => []
     | some p => doubanPageItems cat (extract_douban_event_links p.anchors))
    ++ doubanLoop env cat base step (i + 1) n

/-- `parse_douban_list`. -/
def parse_douban_list (env : Env) (cat base : List Char) (pages step : Nat) :
    List Item :=
  doubanLoop env cat base step 0 pages

/-! ## Guangdong Museum adapter (`parse_gdmuseum_activities`, lines 401-481) -/

/-- The item of the home-page loop (lines 421-436). -/
def gdHomeItem (title href : List Char) : Item :=
  { defaultItem with
    name := title
    area := "天河·广东省博物馆".data
    cost := "low".data
    tags := ["官方场馆".data, "粤博".data, "室内".data]
    timeMin := 80
    checkin := 1
    weatherFit := { rain := true, sun := true, cold := true }
    openHoursHint := "以粤博公告/活动页为准（通常需预约入馆）".data
    notes := "官方场馆活动，雨天/暴晒天友好。".data
    link := href
    source := "gdmuseum.com/home".data }

/-- The item of the activity-list loop (lines 461-475). -/
def gdListItem (title href : List Char) : Item :=
  { defaultItem with
    name := title
    area := "天河·广东省博物馆".data
    cost := "low".data
    tags := ["官方场馆".data, "粤博".data, "室内".data]
    timeMin := 80
    checkin := 1
    openHoursHint := "以活动页为准（通常需预约入馆）".data
    notes := "来自粤博活动列表页。".data
    link := href
    source := "gdmuseum.com/col108".data }

/-- Home-page anchor loop (lines 407-437), bounded by `limit`. -/
def gdLoop1 (limit : Nat) (items : List Item) : List Anchor → List Item
  | [] => items
  | a :: rest =>
    let title := norm a.text
    let href0 := a.href
    if title.isEmpty || href0.isEmpty then gdLoop1 limit items rest
    else if !(containsSub ("活动".data) title || containsSub ("工坊".data) title
        || containsSub ("迎新".data) title) then gdLoop1 limit items rest
    else
      let href := if href0.head? = some '/' then "https://www.gdmuseum.com".data ++ href0
                  else href0
      if !(("http".data).isPrefixOf href) then gdLoop1 limit items rest
      else if looks_bad title then gdLoop1 limit items rest
      else
        let items2 := items ++ [gdHomeItem title href]
        if limit ≤ items2.length then items2 else gdLoop1 limit items2 rest

/-- Activity-list anchor loop (lines 446-477), bounded by `limit * 2`
over the shared accumulating list. -/
def gdLoop2 (limit2 : Nat) (items : List Item) : List Anchor → List Item
  | [] => items
  | a :: rest =>
    let title := norm a.text
    let href0 := a.href
    if title.isEmpty || href0.isEmpty then gdLoop2 limit2 items rest
    else if looks_bad title then gdLoop2 limit2 items rest
    else
      let href := if href0.head? = some '/' then "https://www.gdmuseum.com".data ++ href0
                  else href0
      if !(containsSub ("gdmuseum.com".data) href) then gdLoop2 limit2 items rest
      else if title.length < 6 then gdLoop2 limit2 items rest
      else
        let items2 := items ++ [gdListItem title href]
        if limit2 ≤ items2.length then items2 else gdLoop2 limit2 items2 rest

/-- `parse_gdmuseum_activities`: both fetches have their own failure
boundary; the item list is threaded through both loops. -/
def parse_gdmuseum_activities (env : Env) (limit : Nat) : List Item :=
  let items1 := match env.fetchHtml GDMUSEUM_HOME with
                | none => []
                | some p => gdLoop1 limit [] p.anchors
  match env.fetchHtml GDMUSEUM_ACTIVITY_LIST with
  | none => items1
  | some p => gdLoop2 (limit * 2) items1 p.anchors

/-! ## Guangzhou Museum adapter (`parse_gzmuseum_exhibitions`, lines 484-533) -/

/-- The two endpoints the adapter iterates over (line 486-487). -/
def gzmuseumEndpoints : List (List Char × List Char) :=
  [(GZMUSEUM_EXHIBITION_LIST, "guangzhoumuseum.cn/exhibition".data),
   (GZMUSEUM_EXHIBITION_PRE, "guangzhoumuseum.cn/pre".data)]

/-- The item built at lines 514-528. -/
def gzItem (title link source : List Char) : Item :=
  { defaultItem with
    name := title
    area := "广州博物馆（越秀/镇海楼等馆区）".data
    cost := "low".data
    tags := ["官方场馆".data, "博物馆".data, "展览".data, "室内".data]
    timeMin := 85
    checkin := 1
    openHoursHint := "以广州博物馆官网展览页面为准".data
    notes := "官方展览信息（适合雨天/暴晒天）。".data
    link := link
    source := source }

/-- The href resolution of the Guangzhou Museum loop (lines 507-512 and
the `href or url` at line 526): resolve a leading `/` against the site,
blank out non-`http` leftovers, and fall back to the endpoint URL. -/
def gzResolveLink (url href0 : List Char) : List Char :=
  let href1 := if href0.head? = some '/'
               then "https://www.guangzhoumuseum.cn".data ++ href0 else href0
  let href2 := if !href1.isEmpty && !(("http".data).isPrefixOf href1) then []
               else href1
  if href2.isEmpty then url else href2

/-- Anchor loop for one Guangzhou Museum endpoint. -/
def gzLoop (url source : List Char) (limit : Nat) (items : List Item) :
    List Anchor → List Item
  | [] => items
  | a :: rest =>
    let title := norm a.text
    if title.isEmpty then gzLoop url source limit items rest
    else if title.length < 6 then gzLoop url source limit items rest
    else if containsSub ("首页".data) title || containsSub ("概况".data) title
        || containsSub ("动态".data) title then gzLoop url source limit items rest
    else if looks_bad title then gzLoop url source limit items rest
    else
      let items2 := items ++ [gzItem title (gzResolveLink url a.href) source]
      if limit ≤ items2.length then items2 else gzLoop url source limit items2 rest

/-- `parse_gzmuseum_exhibitions`: both endpoints share the item list;
each has its own failure boundary. -/
def parse_gzmuseum_exhibitions (env : Env) (limit : Nat) : List Item :=
  gzmuseumEndpoints.foldl
    (fun items e =>
      match env.fetchHtml e.1 with
      | none => items
      | some p => gzLoop e.1 e.2 limit items p.anchors) []

/-! ## Aggregation (`dedupe` and `main`, lines 535-585) -/

/-- The dedup key `(name, link)`. -/
def itemKey (it : Item) : List Char × List Char := (it.name, it.link)

/-- `dedupe` with its `seen` set. -/
def dedupeAux (seen : List (List Char × List Char)) : List Item → List Item
  | [] => []
  | it :: rest =>
    if seen.contains (itemKey it) then dedupeAux seen rest
    else it :: dedupeAux (itemKey it :: seen) rest

/-- `dedupe` (lines 535-546). -/
def dedupe (items : List Item) : List Item := dedupeAux [] items

/-- The aggregation-boundary filter of `main` (line 566):
`it.get("name") and not looks_bad(it["name"])`. -/
def aggKeep (it : Item) : Bool := !it.name.isEmpty && !looks_bad it.name

/-- The second filtering pass of `main`. -/
def mainFilter (items : List Item) : List Item := items.filter aggKeep

/-- The concatenated adapter output in run order (lines 549-563). -/
def mainItemsRaw (env : Env) : List Item :=
  parse_wglj_schedule_index env 25
  ++ (DOUBAN_PAGES.map (fun p => parse_douban_list env p.1 p.2 8 10)).flatten
  ++ parse_gdmuseum_activities env 25
  ++ parse_gzmuseum_exhibitions env 20

def MAX_ITEMS : Nat := 220

/-- The final item sequence: filter, dedupe, cap (lines 565-571). -/
def mainFinalItems (env : Env) : List Item :=
  (dedupe (mainFilter (mainItemsRaw env))).take MAX_ITEMS

structure Meta where
  generatedAt : List Char
  sources : List (List Char)
  notes : List Char
deriving DecidableEq, Repr

structure Dataset where
  items : List Item
  meta : Meta
deriving DecidableEq, Repr

/-- `meta["sources"]` (line 577). -/
def metaSources : List (List Char) :=
  [WGLJ_SCHEDULE_INDEX] ++ DOUBAN_PAGES.map Prod.snd
    ++ [GDMUSEUM_HOME, GDMUSEUM_ACTIVITY_LIST, GZMUSEUM_EXHIBITION_LIST]

/-- The dataset `main` writes (lines 573-580). -/
def mainDataset (env : Env) : Dataset :=
  { items := mainFinalItems env
    meta :=
      { generatedAt := env.now
        sources := metaSources
        notes := "自动生成广州活动数据，合并官方+同城聚合，已过滤探店打卡关键词。max=220".data } }

/-! ## Specification-side reference definitions -/

/-- Modelled from the spec's words for the dedup claim: keep, for each
`(name, link)` pair, exactly the first item carrying it, dropping all
later ones. -/
def keepFirstByKey : List Item → List Item
  | [] => []
  | it :: rest =>
    it :: keepFirstByKey (rest.filter (fun x => !(itemKey x == itemKey it)))
termination_by l => l.length
decreasing_by
  simp only [List.length_cons]
  exact Nat.lt_succ_of_le (List.length_filter_le _ _)

/-! ## Raw dictionary view of `make_item`

`make_item(**kw)` receives an arbitrary keyword dictionary and builds the
output dictionary with 23 fixed keys via `kw.get(key, default)`.  To
state the builder claims (presence of every key, defaults, unknown keys
ignored) we model the dictionaries as association lists over an untyped
value domain. -/

inductive PyVal where
  | s (v : List Char)
  | i (v : Int)
  | b (v : Bool)
  | strlist (v : List (List Char))
  | boolmap (v : List (List Char × Bool))
deriving DecidableEq, Repr

/-- The keyword table of `make_item` (lines 233-257): key and default. -/
def schemaDefaults : List (String × PyVal) :=
  [("type", PyVal.s ("event".data)),
   ("name", PyVal.s []),
   ("area", PyVal.s ("广州".data)),
   ("date", PyVal.s []),
   ("timeHint", PyVal.s []),
   ("cost", PyVal.s ("mid".data)),
   ("reservation", PyVal.s ("maybe".data)),
   ("tags", PyVal.strlist []),
   ("transitEase", PyVal.i 3),
   ("transferComplexity", PyVal.i 3),
   ("timeMin", PyVal.i 80),
   ("intensity", PyVal.s ("low".data)),
   ("crowdRisk", PyVal.i 3),
   ("checkin", PyVal.i 2),
   ("weatherFit", PyVal.boolmap [("rain".data, true), ("sun".data, true), ("cold".data, true)]),
   ("seasonFit", PyVal.boolmap
     [("spring".data, true), ("summer".data, true), ("autumn".data, true), ("winter".data, true)]),
   ("mosquito", PyVal.i 1),
   ("toiletSupply", PyVal.i 3),
   ("lighting", PyVal.i 4),
   ("openHoursHint", PyVal.s ("以官方公告/详情页为准".data)),
   ("notes", PyVal.s []),
   ("link", PyVal.s []),
   ("source", PyVal.s ("unknown".data))]

/-- The 23 field names of the §3 schema, in output order. -/
def schemaKeys : List String := schemaDefaults.map Prod.fst

/-- `make_item(**kw)`: every schema key bound to `kw.get(key, default)`. -/
def make_item (kw : List (String × PyVal)) : List (String × PyVal) :=
  schemaDefaults.map (fun e => (e.1, (kw.lookup e.1).getD e.2))

def PyVal.isStr : PyVal → Bool
  | .s _ => true
  | _ => false

def PyVal.isInt : PyVal → Bool
  | .i _ => true
  | _ => false

def PyVal.isStrList : PyVal → Bool
  | .strlist _ => true
  | _ => false

def PyVal.isBoolMap : PyVal → Bool
  | .boolmap _ => true
  | _ => false

/-- The three-level enum {low, mid, high} (used by `cost` and `intensity`). -/
def levelEnum : List (List Char) := ["low".data, "mid".data, "high".data]

/-- The reservation enum {yes, no, maybe}. -/
def reservationEnum : List (List Char) := ["yes".data, "no".data, "maybe".data]

/-- The §3 type of each schema field, as a test on the untyped values. -/
def fieldTy (k : String) (v : PyVal) : Bool :=
  if k = "type" then v == PyVal.s ("event".data)
  else if k = "cost" || k = "intensity" then levelEnum.any (fun c => v == PyVal.s c)
  else if k = "reservation" then reservationEnum.any (fun c => v == PyVal.s c)
  else if k = "tags" then v.isStrList
  else if k = "weatherFit" || k = "seasonFit" then v.isBoolMap
  else if (["transitEase", "transferComplexity", "timeMin", "crowdRisk",
            "checkin", "mosquito", "toiletSupply", "lighting"] : List String).contains k then
    v.isInt
  else v.isStr

/-- A keyword dictionary is well typed when every binding it makes to a
schema key has that field's §3 type (bindings to unknown keys are free). -/
def wellTypedKw (kw : List (String × PyVal)) : Bool :=
  kw.all (fun p => !(schemaKeys.contains p.1) || fieldTy p.1 p.2)

/-- A sample partial mapping: one schema field, one enum field, one
unknown key. -/
def kwSample : List (String × PyVal) :=
  [("name", PyVal.s ("测试活动".data)), ("cost", PyVal.s ("low".data)),
   ("bogus", PyVal.i 7)]

/-! ## Concrete runs used by the counterexamples and evaluations -/

/-- The synthetic two-block bulletin text of spec §8 (blocks joined with
a newline, as `extract_pdf_text` joins pages). -/
def synthBlockA : List Char := "地点：文化宫 2025年3月5日 10:00-12:00 春季手工坊".data

def synthBlockB : List Char := "2025年4月1日 19:30-21:00 地点：大剧院 交响音乐会".data

def synthBulletin : List Char := synthBlockA ++ '\n' :: synthBlockB

def synthPdfUrl : List Char := "https://wglj.gz.gov.cn/att/list.pdf".data

/-- Environment in which every fetch raises. -/
def envAllFail : Env :=
  { fetchHtml := fun _ => none
    fetchPdfText := fun _ => none
    urljoin := fun _ r => r
    now := [] }

/-- A schedule-index page whose single anchor has a hard-keyword title
(and the required index keyword `活动`). -/
def wgljCexAnchor : Anchor :=
  { text := "网红打卡活动".data, href := "https://wglj.gz.gov.cn/a/doc.html".data }

/-- Environment for the ingestion-filter counterexample: only the
schedule index resolves; the entry page (and hence its PDFs) fails. -/
def envWgljCex : Env :=
  { fetchHtml := fun u =>
      if u = WGLJ_SCHEDULE_INDEX then some { raw := [], anchors := [wgljCexAnchor] }
      else none
    fetchPdfText := fun _ => none
    urljoin := fun _ r => r
    now := [] }

/-- A Douban week-all list page carrying one event anchor with a
page-relative href, as matched by the `/event/\d+` branch. -/
def doubanRelAnchor : Anchor :=
  { text := "交响音乐会专场".data, href := "/event/12345".data }

/-- Environment for the relative-link counterexample: only the week-all
first page resolves. -/
def envDoubanRel : Env :=
  { fetchHtml := fun u =>
      if u = DOUBAN_BASE ++ "week-all".data then
        some { raw := [], anchors := [doubanRelAnchor] }
      else none
    fetchPdfText := fun _ => none
    urljoin := fun _ r => r
    now := [] }

/-- A Douban anchor whose visible text carries an explicit price. -/
def doubanPriceAnchor : Anchor :=
  { text := "交响音乐会 票价 200元".data
    href := "https://www.douban.com/event/34567890/".data }

/-- Environment for the cost counterexample: only the week-all first page
resolves, and its single candidate title contains the price `200元`. -/
def envDoubanPrice : Env :=
  { fetchHtml := fun u =>
      if u = DOUBAN_BASE ++ "week-all".data then
        some { raw := [], anchors := [doubanPriceAnchor] }
      else none
    fetchPdfText := fun _ => none
    urljoin := fun _ r => r
    now := [] }

/-- An anchor acceptable to the schedule-index adapter (keyword `精选`,
clean title, absolute link). -/
def wgljGoodAnchor : Anchor :=
  { text := "本周活动精选".data, href := "https://wglj.gz.gov.cn/zx/1.html".data }

/-- Environment for the C6 witness: the schedule index resolves (its one
entry yields an item; the entry page itself fails, so no PDFs), while
every other fetch — in particular every Douban week-music page — raises. -/
def envC6Witness : Env :=
  { fetchHtml := fun u =>
      if u = WGLJ_SCHEDULE_INDEX then some { raw := [], anchors := [wgljGoodAnchor] }
      else none
    fetchPdfText := fun _ => none
    urljoin := fun _ r => r
    now := [] }

/-! # Theorems

First a block of helper lemmas about the normalizer, then the claim
theorems. -/

theorem isWS_space : isWS ' ' = true := by decide

theorem collapseAux_ws_false {c : Char} (l : List Char) (h : isWS c = true) :
    collapseAux false (c :: l) = ' ' :: collapseAux true l := by
  simp [collapseAux, h]

theorem collapseAux_ws_true {c : Char} (l : List Char) (h : isWS c = true) :
    collapseAux true (c :: l) = collapseAux true l := by
  simp [collapseAux, h]

theorem collapseAux_nonws {c : Char} (l : List Char) (b : Bool) (h : isWS c = false) :
    collapseAux b (c :: l) = c :: collapseAux false l := by
  simp [collapseAux, h]

theorem dropTrailWS_cons_of_nil {c : Char} {l : List Char} (h : dropTrailWS l = []) :
    dropTrailWS (c :: l) = if isWS c then [] else [c] := by
  simp only [dropTrailWS, h]

theorem dropTrailWS_cons_of_cons {c d : Char} {l r2 : List Char}
    (h : dropTrailWS l = d :: r2) :
    dropTrailWS (c :: l) = c :: d :: r2 := by
  simp only [dropTrailWS, h]

theorem collapseAux_allSpace (l : List Char) : ∀ b, allSpaceWS (collapseAux b l) = true := by
  induction l with
  | nil => intro b; rfl
  | cons c rest ih =>
    intro b
    cases hc : isWS c with
    | true =>
      cases b with
      | false =>
        rw [collapseAux_ws_false _ hc]
        simp only [allSpaceWS, List.all_cons] at ih ⊢
        simp [ih true, isWS_space]
      | true =>
        rw [collapseAux_ws_true _ hc]
        exact ih true
    | false =>
      rw [collapseAux_nonws _ _ hc]
      simp only [allSpaceWS, List.all_cons] at ih ⊢
      simp [hc, ih false]

theorem collapseAux_true_noLead (l : List Char) : noLeadWS (collapseAux true l) = true := by
  induction l with
  | nil => rfl
  | cons c rest ih =>
    cases hc : isWS c with
    | true =>
      rw [collapseAux_ws_true _ hc]
      exact ih
    | false =>
      rw [collapseAux_nonws _ _ hc]
      simp [noLeadWS, hc]

theorem noDoubleWS_cons (a : Char) (l : List Char) (hl : noDoubleWS l = true)
    (h : isWS a = false ∨ noLeadWS l = true) : noDoubleWS (a :: l) = true := by
  cases l with
  | nil => rfl
  | cons b rest =>
    simp only [noDoubleWS, Bool.and_eq_true, Bool.not_eq_true']
    refine ⟨?_, hl⟩
    rcases h with h | h
    · simp [h]
    · simp only [noLeadWS, Bool.not_eq_true'] at h
      simp [h]

theorem collapseAux_noDouble (l : List Char) : ∀ b, noDoubleWS (collapseAux b l) = true := by
  induction l with
  | nil => intro b; rfl
  | cons c rest ih =>
    intro b
    cases hc : isWS c with
    | true =>
      cases b with
      | false =>
        rw [collapseAux_ws_false _ hc]
        exact noDoubleWS_cons _ _ (ih true) (Or.inr (collapseAux_true_noLead rest))
      | true =>
        rw [collapseAux_ws_true _ hc]
        exact ih true
    | false =>
      rw [collapseAux_nonws _ _ hc]
      exact noDoubleWS_cons _ _ (ih false) (Or.inl hc)

theorem collapseAux_ne_nil (l : List Char) :
    ∀ b, l.any (fun c => !isWS c) = true → collapseAux b l ≠ [] := by
  induction l with
  | nil => intro b h; simp at h
  | cons c rest ih =>
    intro b h
    cases hc : isWS c with
    | true =>
      have hrest : rest.any (fun c => !isWS c) = true := by
        simpa [hc] using h
      cases b with
      | false =>
        rw [collapseAux_ws_false _ hc]
        simp
      | true =>
        rw [collapseAux_ws_true _ hc]
        exact ih true hrest
    | false =>
      rw [collapseAux_nonws _ _ hc]
      simp

theorem noTrailWS_cons (a : Char) (l : List Char) :
    noTrailWS (a :: l) = if l = [] then !isWS a else noTrailWS l := by
  cases l with
  | nil => simp [noTrailWS]
  | cons b rest => simp [noTrailWS]

theorem any_nonWS_of_noTrail (l : List Char) :
    l ≠ [] → noTrailWS l = true → l.any (fun c => !isWS c) = true := by
  induction l with
  | nil => intro hne _; exact absurd rfl hne
  | cons c rest ih =>
    intro _ h
    cases rest with
    | nil =>
      simp only [noTrailWS] at h
      simp [List.any_cons, h]
    | cons d rest2 =>
      simp only [noTrailWS] at h
      have hx := ih (by simp) h
      simp only [List.any_cons] at hx ⊢
      simp [hx]

theorem collapseAux_noTrail (l : List Char) :
    ∀ b, noTrailWS l = true → noTrailWS (collapseAux b l) = true := by
  induction l with
  | nil => intro b _; rfl
  | cons c rest ih =>
    intro b h
    cases rest with
    | nil =>
      simp only [noTrailWS] at h
      have hc : isWS c = false := by
        cases hcc : isWS c
        · rfl
        · rw [hcc] at h; simp at h
      rw [collapseAux_nonws _ _ hc]
      simp [collapseAux, noTrailWS, hc]
    | cons d rest2 =>
      have hrest : noTrailWS (d :: rest2) = true := by
        simpa only [noTrailWS] using h
      cases hc : isWS c with
      | true =>
        cases b with
        | true =>
          rw [collapseAux_ws_true _ hc]
          exact ih true hrest
        | false =>
          rw [collapseAux_ws_false _ hc]
          have hne : collapseAux true (d :: rest2) ≠ [] :=
            collapseAux_ne_nil _ true (any_nonWS_of_noTrail _ (by simp) hrest)
          rw [noTrailWS_cons, if_neg hne]
          exact ih true hrest
      | false =>
        rw [collapseAux_nonws _ _ hc]
        have hne : collapseAux false (d :: rest2) ≠ [] :=
          collapseAux_ne_nil _ false (any_nonWS_of_noTrail _ (by simp) hrest)
        rw [noTrailWS_cons, if_neg hne]
        exact ih false hrest

theorem collapseAux_id (l : List Char) (h1 : allSpaceWS l = true)
    (h2 : noDoubleWS l = true) (h3 : noTrailWS l = true) :
    collapseAux false l = l := by
  induction l with
  | nil => rfl
  | cons c rest ih =>
    cases hc : isWS c with
    | true =>
      have hsp : c = ' ' := by
        simp only [allSpaceWS, List.all_cons, Bool.and_eq_true] at h1
        have hx := h1.1
        simp [hc] at hx
        exact hx
      cases rest with
      | nil =>
        simp only [noTrailWS] at h3
        rw [hc] at h3
        simp at h3
      | cons d rest2 =>
        have hd : isWS d = false := by
          simp only [noDoubleWS, Bool.and_eq_true, Bool.not_eq_true'] at h2
          have hx := h2.1
          simp [hc] at hx
          exact hx
        have h1r : allSpaceWS (d :: rest2) = true := by
          simp only [allSpaceWS, List.all_cons, Bool.and_eq_true] at h1 ⊢
          exact h1.2
        have h2r : noDoubleWS (d :: rest2) = true := by
          simp only [noDoubleWS, Bool.and_eq_true] at h2
          exact h2.2
        have h3r : noTrailWS (d :: rest2) = true := by
          simpa only [noTrailWS] using h3
        rw [collapseAux_ws_false _ hc, collapseAux_nonws _ _ hd]
        have ht := ih h1r h2r h3r
        rw [collapseAux_nonws _ _ hd] at ht
        have ht2 : collapseAux false rest2 = rest2 := by
          injection ht
        rw [ht2, hsp]
    | false =>
      rw [collapseAux_nonws _ _ hc]
      cases rest with
      | nil => rfl
      | cons d rest2 =>
        have h1r : allSpaceWS (d :: rest2) = true := by
          simp only [allSpaceWS, List.all_cons, Bool.and_eq_true] at h1 ⊢
          exact h1.2
        have h2r : noDoubleWS (d :: rest2) = true := by
          simp only [noDoubleWS, Bool.and_eq_true] at h2
          exact h2.2
        have h3r : noTrailWS (d :: rest2) = true := by
          simpa only [noTrailWS] using h3
        rw [ih h1r h2r h3r]

theorem dropWhile_noLead (l : List Char) : noLeadWS (l.dropWhile isWS) = true := by
  induction l with
  | nil => rfl
  | cons c rest ih =>
    cases hc : isWS c with
    | true => simpa [List.dropWhile_cons, hc] using ih
    | false => simp [List.dropWhile_cons, hc, noLeadWS]

theorem dropTrailWS_noTrail (l : List Char) : noTrailWS (dropTrailWS l) = true := by
  induction l with
  | nil => rfl
  | cons c rest ih =>
    rcases hrec : dropTrailWS rest with _ | ⟨d, r2⟩
    · rw [dropTrailWS_cons_of_nil hrec]
      cases hc : isWS c with
      | true => simp [hc, noTrailWS]
      | false => simp [hc, noTrailWS]
    · rw [dropTrailWS_cons_of_cons hrec]
      rw [hrec] at ih
      simpa only [noTrailWS] using ih

theorem dropTrailWS_cons_shape (c : Char) (l : List Char) :
    dropTrailWS (c :: l) = [] ∨ ∃ r, dropTrailWS (c :: l) = c :: r := by
  rcases hrec : dropTrailWS l with _ | ⟨d, r2⟩
  · rw [dropTrailWS_cons_of_nil hrec]
    cases hc : isWS c with
    | true => simp [hc]
    | false => exact Or.inr ⟨[], by simp [hc]⟩
  · exact Or.inr ⟨d :: r2, dropTrailWS_cons_of_cons hrec⟩

theorem dropTrailWS_noLead (l : List Char) (h : noLeadWS l = true) :
    noLeadWS (dropTrailWS l) = true := by
  cases l with
  | nil => rfl
  | cons c rest =>
    rcases dropTrailWS_cons_shape c rest with hsh | ⟨r, hsh⟩
    · simp [hsh, noLeadWS]
    · rw [hsh]
      simpa [noLeadWS] using h

theorem dropWhile_id_of_noLead (l : List Char) (h : noLeadWS l = true) :
    l.dropWhile isWS = l := by
  cases l with
  | nil => rfl
  | cons c rest =>
    simp only [noLeadWS, Bool.not_eq_true'] at h
    simp [List.dropWhile_cons, h]

theorem dropTrailWS_id_of_noTrail (l : List Char) (h : noTrailWS l = true) :
    dropTrailWS l = l := by
  induction l with
  | nil => rfl
  | cons c rest ih =>
    cases rest with
    | nil =>
      simp only [noTrailWS, Bool.not_eq_true'] at h
      simp [dropTrailWS, h]
    | cons d rest2 =>
      have h2 : noTrailWS (d :: rest2) = true := by simpa only [noTrailWS] using h
      exact dropTrailWS_cons_of_cons (ih h2)

theorem norm_normalized (l : List Char) : normalizedB (norm l) = true := by
  have hlead : noLeadWS (dropTrailWS (l.dropWhile isWS)) = true :=
    dropTrailWS_noLead _ (dropWhile_noLead l)
  have htrail : noTrailWS (dropTrailWS (l.dropWhile isWS)) = true :=
    dropTrailWS_noTrail _
  have hnormLead : noLeadWS (norm l) = true := by
    show noLeadWS (collapseAux false (dropTrailWS (l.dropWhile isWS))) = true
    rcases hsh : dropTrailWS (l.dropWhile isWS) with _ | ⟨c, r⟩
    · rfl
    · rw [hsh] at hlead
      simp only [noLeadWS, Bool.not_eq_true'] at hlead
      rw [collapseAux_nonws _ _ hlead]
      simp [noLeadWS, hlead]
  simp only [normalizedB, Bool.and_eq_true]
  exact ⟨⟨⟨collapseAux_allSpace _ false, hnormLead⟩, collapseAux_noDouble _ false⟩,
    collapseAux_noTrail _ false htrail⟩

theorem norm_idem (l : List Char) : norm (norm l) = norm l := by
  have h := norm_normalized l
  simp only [normalizedB, Bool.and_eq_true] at h
  rcases h with ⟨⟨⟨hsp, hlead⟩, hdbl⟩, htr⟩
  show collapseAux false (dropTrailWS ((norm l).dropWhile isWS)) = norm l
  rw [dropWhile_id_of_noLead _ hlead, dropTrailWS_id_of_noTrail _ htr]
  exact collapseAux_id _ hsp hdbl htr

theorem collapseAux_filter (l : List Char) : ∀ b,
    (collapseAux b l).filter (fun c => !isWS c) = l.filter (fun c => !isWS c) := by
  induction l with
  | nil => intro b; rfl
  | cons c rest ih =>
    intro b
    cases hc : isWS c with
    | true =>
      cases b with
      | false =>
        rw [collapseAux_ws_false _ hc]
        simp [List.filter_cons, hc, isWS_space, ih true]
      | true =>
        rw [collapseAux_ws_true _ hc]
        simp [List.filter_cons, hc, ih true]
    | false =>
      rw [collapseAux_nonws _ _ hc]
      simp [List.filter_cons, hc, ih false]

theorem dropWhile_filter (l : List Char) :
    (l.dropWhile isWS).filter (fun c => !isWS c) = l.filter (fun c => !isWS c) := by
  induction l with
  | nil => rfl
  | cons c rest ih =>
    cases hc : isWS c with
    | true => simp [List.dropWhile_cons, hc, List.filter_cons, ih]
    | false => simp [List.dropWhile_cons, hc]

theorem dropTrailWS_filter (l : List Char) :
    (dropTrailWS l).filter (fun c => !isWS c) = l.filter (fun c => !isWS c) := by
  induction l with
  | nil => rfl
  | cons c rest ih =>
    rcases hrec : dropTrailWS rest with _ | ⟨d, r2⟩
    · rw [dropTrailWS_cons_of_nil hrec]
      rw [hrec] at ih
      cases hc : isWS c with
      | true => simp [hc, List.filter_cons, ← ih]
      | false => simp [hc, List.filter_cons, ← ih]
    · rw [dropTrailWS_cons_of_cons hrec]
      rw [hrec] at ih
      simp [List.filter_cons, ih]

theorem norm_filter (l : List Char) :
    (norm l).filter (fun c => !isWS c) = l.filter (fun c => !isWS c) := by
  show (collapseAux false (dropTrailWS (l.dropWhile isWS))).filter (fun c => !isWS c)
    = l.filter (fun c => !isWS c)
  rw [collapseAux_filter _ false, dropTrailWS_filter, dropWhile_filter]

/-! ### The filter in terms of hard keywords -/

/-- The inner soft-keyword branch of `looks_bad` is unreachable (its
condition re-tests the hard-keyword match already known to hold), so the
verdict is exactly: the normalized title contains a hard keyword. -/
theorem looks_bad_eq (t : List Char) : looks_bad t = hasHardKw (norm t) := by
  unfold looks_bad hasHardKw
  cases h : BAD_KEYWORDS.any (fun k => containsSub k (norm t)) <;> simp [h]

/-- C1: for every title `t`, the Content Filter rejects `t` iff the
normalized `t` contains at least one hard-reject keyword; in particular a
title containing a hard and a soft keyword is rejected, and a title
containing a soft keyword but no hard keyword is accepted. -/
theorem C1_filter_rejects_iff_hard (t : List Char) :
    (looks_bad t = true ↔ hasHardKw (norm t) = true)
    ∧ (hasHardKw (norm t) = true → hasSoftKw (norm t) = true → looks_bad t = true)
    ∧ (hasSoftKw (norm t) = true → hasHardKw (norm t) = false → looks_bad t = false) := by
  refine ⟨?_, ?_, ?_⟩
  · rw [looks_bad_eq]
  · intro h1 _
    rw [looks_bad_eq]
    exact h1
  · intro _ h2
    rw [looks_bad_eq, h2]

/-- Witness for C1 at the spec's own examples: `网红打卡约会专场` (hard and
soft keywords) is rejected; `脱口秀约会之夜` (soft keyword only) is
accepted. -/
theorem C1_filter_rejects_iff_hard_witness :
    looks_bad ("网红打卡约会专场".data) = true
    ∧ looks_bad ("脱口秀约会之夜".data) = false := by
  constructor
  · exact (C1_filter_rejects_iff_hard ("网红打卡约会专场".data)).2.1 (by decide) (by decide)
  · exact (C1_filter_rejects_iff_hard ("脱口秀约会之夜".data)).2.2 (by decide) (by decide)

/-- C7: the filter verdict is invariant under normalization; `norm` is
idempotent, maps empty/None to empty, collapses all whitespace runs to
single spaces and trims both ends (stated as: the result is in normalized
form and preserves the non-whitespace content in order); and re-applying
the filter over a list changes nothing. -/
theorem C7_filter_norm_invariant (t : List Char) (items : List (List Char)) :
    looks_bad (norm t) = looks_bad t
    ∧ norm (norm t) = norm t
    ∧ normOpt none = []
    ∧ norm [] = []
    ∧ normalizedB (norm t) = true
    ∧ (norm t).filter (fun c => !isWS c) = t.filter (fun c => !isWS c)
    ∧ (items.filter (fun s => !looks_bad s)).filter (fun s => !looks_bad s)
        = items.filter (fun s => !looks_bad s) := by
  refine ⟨?_, norm_idem t, rfl, rfl, norm_normalized t, norm_filter t, ?_⟩
  · rw [looks_bad_eq, looks_bad_eq, norm_idem]
  · rw [List.filter_filter]
    simp

/-! ### Deduplication -/

theorem dedupePairsAux_sub :
    ∀ (ps : List (List Char × List Char)) (seen : List (List Char × List Char))
      (p : List Char × List Char), p ∈ dedupePairsAux seen ps → p ∈ ps := by
  intro ps
  induction ps with
  | nil => intro seen p hp; simpa [dedupePairsAux] using hp
  | cons q rest ih =>
    intro seen p hp
    rw [dedupePairsAux] at hp
    by_cases hq : seen.contains q = true
    · rw [if_pos hq] at hp
      exact List.mem_cons_of_mem _ (ih seen p hp)
    · rw [if_neg hq] at hp
      rcases List.mem_cons.mp hp with rfl | hp2
      · exact List.mem_cons_self _ _
      · exact List.mem_cons_of_mem _ (ih _ p hp2)

theorem filter_key_shift (rest : List Item) (k : List Char × List Char)
    (seen : List (List Char × List Char)) :
    rest.filter (fun x => !((k :: seen).contains (itemKey x)))
      = (rest.filter (fun x => !(seen.contains (itemKey x)))).filter
          (fun x => !(itemKey x == k)) := by
  rw [List.filter_filter]
  apply List.filter_congr
  intro x _
  show (!((k :: seen).contains (itemKey x))) = (!(itemKey x == k) && !(seen.contains (itemKey x)))
  rw [List.contains_cons]
  cases h1 : itemKey x == k <;> cases h2 : seen.contains (itemKey x) <;> rfl

theorem dedupeAux_eq_keepFirst :
    ∀ (l : List Item) (seen : List (List Char × List Char)),
      dedupeAux seen l
        = keepFirstByKey (l.filter (fun it => !(seen.contains (itemKey it)))) := by
  intro l
  induction l with
  | nil => intro seen; simp [dedupeAux, keepFirstByKey]
  | cons it rest ih =>
    intro seen
    rw [dedupeAux]
    by_cases hs : seen.contains (itemKey it) = true
    · rw [if_pos hs, List.filter_cons]
      simp only [hs]
      simpa using ih seen
    · have hs2 : seen.contains (itemKey it) = false := by
        cases h : seen.contains (itemKey it)
        · rfl
        · exact absurd h hs
      rw [if_neg hs, List.filter_cons]
      simp only [hs2, Bool.not_false, if_pos]
      rw [keepFirstByKey, ih (itemKey it :: seen), filter_key_shift]

theorem keepFirst_mem_sub :
    ∀ (n : Nat) (l : List Item), l.length ≤ n →
      ∀ x ∈ keepFirstByKey l, x ∈ l := by
  intro n
  induction n with
  | zero =>
    intro l hl x hx
    cases l with
    | nil => simpa [keepFirstByKey] using hx
    | cons a rest => simp at hl
  | succ n ih =>
    intro l hl x hx
    cases l with
    | nil => simpa [keepFirstByKey] using hx
    | cons it rest =>
      rw [keepFirstByKey] at hx
      rcases List.mem_cons.mp hx with rfl | hx2
      · exact List.mem_cons_self _ _
      · have hlen : (rest.filter (fun y => !(itemKey y == itemKey it))).length ≤ n :=
          le_trans (List.length_filter_le _ _) (Nat.le_of_succ_le_succ hl)
        exact List.mem_cons_of_mem _ (List.mem_of_mem_filter (ih _ hlen x hx2))

theorem keepFirst_nodup :
    ∀ (n : Nat) (l : List Item), l.length ≤ n →
      ((keepFirstByKey l).map itemKey).Nodup := by
  intro n
  induction n with
  | zero =>
    intro l hl
    cases l with
    | nil => simp [keepFirstByKey]
    | cons a rest => simp at hl
  | succ n ih =>
    intro l hl
    cases l with
    | nil => simp [keepFirstByKey]
    | cons it rest =>
      rw [keepFirstByKey, List.map_cons]
      refine List.nodup_cons.mpr ⟨?_, ih _ (le_trans (List.length_filter_le _ _)
        (Nat.le_of_succ_le_succ hl))⟩
      intro hmem
      obtain ⟨x, hx, hkey⟩ := List.mem_map.mp hmem
      have hxf : x ∈ rest.filter (fun y => !(itemKey y == itemKey it)) :=
        keepFirst_mem_sub _ _ (le_trans (List.length_filter_le _ _)
          (Nat.le_of_succ_le_succ hl)) x hx
      have hne := List.of_mem_filter hxf
      simp only [Bool.not_eq_true', beq_eq_false_iff_ne, ne_eq] at hne
      exact hne hkey

/-- C3: `dedupe` keeps, for each `(name, link)` pair, exactly the first
item carrying it and drops all later ones (it equals the spec-side
`keepFirstByKey`), so every key occurs at most once in its output. -/
theorem C3_dedupe_keeps_first (items : List Item) :
    dedupe items = keepFirstByKey items
    ∧ ((dedupe items).map itemKey).Nodup := by
  have h : dedupe items = keepFirstByKey items := by
    show dedupeAux [] items = keepFirstByKey items
    rw [dedupeAux_eq_keepFirst]
    congr 1
    simp
  refine ⟨h, ?_⟩
  rw [h]
  exact keepFirst_nodup items.length items le_rfl

/-! ### The canonical item builder -/

theorem lookup_mem {α β : Type} [BEq α] [LawfulBEq α] :
    ∀ (l : List (α × β)) (k : α) (v : β), l.lookup k = some v → (k, v) ∈ l := by
  intro l
  induction l with
  | nil => intro k v h; simp [List.lookup] at h
  | cons e rest ih =>
    intro k v h
    rw [List.lookup] at h
    by_cases hk : (k == e.1) = true
    · rw [hk] at h
      simp only [Option.some.injEq] at h
      have : k = e.1 := eq_of_beq hk
      subst this
      subst h
      exact List.mem_cons_self _ _
    · have hk2 : (k == e.1) = false := by
        cases hh : (k == e.1)
        · rfl
        · exact absurd hh hk
      rw [hk2] at h
      exact List.mem_cons_of_mem _ (ih k v h)

theorem lookup_map_keyed (g : String → PyVal → PyVal) :
    ∀ (l : List (String × PyVal)) (k : String),
      (l.map (fun e => (e.1, g e.1 e.2))).lookup k = (l.lookup k).map (g k) := by
  intro l
  induction l with
  | nil => intro k; rfl
  | cons e rest ih =>
    intro k
    simp only [List.map_cons, List.lookup]
    cases hk : (k == e.1) with
    | true =>
      have : k = e.1 := eq_of_beq hk
      subst this
      rfl
    | false => exact ih k

theorem lookup_self_of_nodupkeys :
    ∀ (l : List (String × PyVal)), (l.map Prod.fst).Nodup →
      ∀ e ∈ l, l.lookup e.1 = some e.2 := by
  intro l
  induction l with
  | nil => intro _ e he; simp at he
  | cons d rest ih =>
    intro hnd e he
    rw [List.map_cons, List.nodup_cons] at hnd
    rcases List.mem_cons.mp he with rfl | he2
    · rw [List.lookup]
      simp
    · rw [List.lookup]
      have hne : e.1 ≠ d.1 := by
        intro hcontra
        exact hnd.1 (hcontra ▸ List.mem_map_of_mem Prod.fst he2)
      have : (e.1 == d.1) = false := beq_eq_false_iff_ne.mpr hne
      rw [this]
      exact ih hnd.2 e he2

theorem lookup_filter_known :
    ∀ (l : List (String × PyVal)) (k : String), schemaKeys.contains k = true →
      (l.filter (fun p => schemaKeys.contains p.1)).lookup k = l.lookup k := by
  intro l
  induction l with
  | nil => intro k _; rfl
  | cons e rest ih =>
    intro k hk
    rw [List.filter_cons]
    by_cases he : schemaKeys.contains e.1 = true
    · rw [if_pos he]
      rw [List.lookup, List.lookup]
      cases hke : (k == e.1) with
      | true => rfl
      | false => exact ih k hk
    · have he2 : schemaKeys.contains e.1 = false := by
        cases hh : schemaKeys.contains e.1
        · rfl
        · exact absurd hh he
      rw [if_neg he]
      rw [List.lookup]
      cases hke : (k == e.1) with
      | true =>
        have : k = e.1 := eq_of_beq hke
        rw [this, he2] at hk
        simp at hk
      | false => exact ih k hk

theorem schemaKeys_nodup : (schemaDefaults.map Prod.fst).Nodup := by decide

theorem schemaDefaults_welltyped : ∀ d ∈ schemaDefaults, fieldTy d.1 d.2 = true := by decide

/-- C4: for every well-typed partial field mapping (including the empty
mapping), `make_item` returns a dictionary whose keys are exactly the 23
schema fields in order, every value has its field's stated type,
unspecified fields get the fixed default, and unknown/extra input keys
are ignored; being a total function, the builder never fails. -/
theorem C4_make_item_total (kw : List (String × PyVal)) (h : wellTypedKw kw = true) :
    (make_item kw).map Prod.fst = schemaKeys
    ∧ (∀ e ∈ make_item kw, fieldTy e.1 e.2 = true)
    ∧ (∀ e ∈ schemaDefaults, kw.lookup e.1 = none → (make_item kw).lookup e.1 = some e.2)
    ∧ make_item kw = make_item (kw.filter (fun p => schemaKeys.contains p.1)) := by
  refine ⟨?_, ?_, ?_, ?_⟩
  · show (schemaDefaults.map _).map Prod.fst = schemaKeys
    rw [List.map_map]
    rfl
  · intro e he
    obtain ⟨d, hd, rfl⟩ := List.mem_map.mp he
    cases hk : kw.lookup d.1 with
    | none =>
      simp only [hk, Option.getD_none]
      exact schemaDefaults_welltyped d hd
    | some v =>
      simp only [hk, Option.getD_some]
      have hmem := lookup_mem kw d.1 v hk
      have hkey : schemaKeys.contains d.1 = true := by
        have : d.1 ∈ schemaKeys := List.mem_map_of_mem Prod.fst hd
        exact List.elem_iff.mpr this
      have hall := List.all_eq_true.mp h (d.1, v) hmem
      simp only [hkey, Bool.not_true, Bool.false_or] at hall
      exact hall
  · intro e he hk
    show ((schemaDefaults.map (fun d => (d.1, (kw.lookup d.1).getD d.2))).lookup e.1) = some e.2
    rw [lookup_map_keyed (fun k v => (kw.lookup k).getD v) schemaDefaults e.1]
    rw [lookup_self_of_nodupkeys schemaDefaults schemaKeys_nodup e he]
    simp [hk]
  · apply List.map_congr_left
    intro d hd
    have hkey : schemaKeys.contains d.1 = true :=
      List.elem_iff.mpr (List.mem_map_of_mem Prod.fst hd)
    rw [lookup_filter_known kw d.1 hkey]

/-- Witness for C4 at a concrete mapping binding one string field, one
enum field and one unknown key. -/
theorem C4_make_item_total_witness :
    wellTypedKw kwSample = true
    ∧ ((make_item kwSample).map Prod.fst = schemaKeys
      ∧ (∀ e ∈ make_item kwSample, fieldTy e.1 e.2 = true)
      ∧ (∀ e ∈ schemaDefaults, kwSample.lookup e.1 = none →
          (make_item kwSample).lookup e.1 = some e.2)
      ∧ make_item kwSample = make_item (kwSample.filter (fun p => schemaKeys.contains p.1))) :=
  ⟨by decide, C4_make_item_total kwSample (by decide)⟩

/-! ### Items emitted by the filtering adapters survive the second filter -/

theorem aggKeep_of (it : Item) (h1 : it.name ≠ []) (h2 : looks_bad it.name = false) :
    aggKeep it = true := by
  unfold aggKeep
  rw [h2]
  cases hn : it.name with
  | nil => exact absurd hn h1
  | cons c r => rfl

theorem extractPairsAux_text_ne :
    ∀ (anchors : List Anchor) (p : List Char × List Char),
      p ∈ extractPairsAux anchors → p.1 ≠ [] := by
  intro anchors
  induction anchors with
  | nil => intro p hp; simp [extractPairsAux] at hp
  | cons a rest ih =>
    intro p hp
    simp only [extractPairsAux] at hp
    by_cases h1 : (norm a.text).isEmpty = true
    · rw [if_pos h1] at hp
      exact ih p hp
    · rw [if_neg h1] at hp
      by_cases h2 : doubanPairCond a.href = true
      · rw [if_pos h2] at hp
        rcases List.mem_cons.mp hp with rfl | hp2
        · intro hc
          rw [show (norm a.text, a.href).1 = norm a.text from rfl] at hc
          rw [hc] at h1
          exact h1 rfl
        · exact ih p hp2
      · rw [if_neg h2] at hp
        exact ih p hp

theorem doubanPageItems_good (cat : List Char) :
    ∀ (ps : List (List Char × List Char)), (∀ p ∈ ps, (p.1 : List Char) ≠ []) →
      ∀ it ∈ doubanPageItems cat ps, aggKeep it = true := by
  intro ps
  induction ps with
  | nil => intro _ it hit; simp [doubanPageItems] at hit
  | cons p rest ih =>
    intro hps it hit
    obtain ⟨t, h⟩ := p
    rw [doubanPageItems] at hit
    by_cases hb : looks_bad t = true
    · rw [if_pos hb] at hit
      exact ih (fun q hq => hps q (List.mem_cons_of_mem _ hq)) it hit
    · have hb2 : looks_bad t = false := by
        cases hh : looks_bad t
        · rfl
        · exact absurd hh hb
      rw [if_neg hb] at hit
      rcases List.mem_cons.mp hit with rfl | hit2
      · exact aggKeep_of _ (hps (t, h) (List.mem_cons_self _ _)) hb2
      · exact ih (fun q hq => hps q (List.mem_cons_of_mem _ hq)) it hit2

theorem doubanLoop_good (env : Env) (cat base : List Char) (step : Nat) :
    ∀ (n i : Nat), ∀ it ∈ doubanLoop env cat base step i n, aggKeep it = true := by
  intro n
  induction n with
  | zero => intro i it hit; simp [doubanLoop] at hit
  | succ n ih =>
    intro i it hit
    rw [doubanLoop] at hit
    rcases List.mem_append.mp hit with hit1 | hit2
    · cases hf : env.fetchHtml (doubanUrl base (i * step)) with
      | none =>
        rw [hf] at hit1
        simp at hit1
      | some p =>
        rw [hf] at hit1
        have hit1b : it ∈ doubanPageItems cat (extract_douban_event_links p.anchors) := hit1
        refine doubanPageItems_good cat _ ?_ it hit1b
        intro q hq
        exact extractPairsAux_text_ne p.anchors q (dedupePairsAux_sub _ _ q hq)
    · exact ih (i + 1) it hit2

theorem parse_douban_good (env : Env) (cat base : List Char) (pages step : Nat) :
    ∀ it ∈ parse_douban_list env cat base pages step, aggKeep it = true :=
  doubanLoop_good env cat base step pages 0

theorem gdLoop1_good (limit : Nat) :
    ∀ (anchors : List Anchor) (items : List Item),
      (∀ it ∈ items, aggKeep it = true) →
      ∀ it ∈ gdLoop1 limit items anchors, aggKeep it = true := by
  intro anchors
  induction anchors with
  | nil =>
    intro items hinv it hit
    rw [gdLoop1] at hit
    exact hinv it hit
  | cons a rest ih =>
    intro items hinv it hit
    simp only [gdLoop1] at hit
    by_cases h1 : ((norm a.text).isEmpty || a.href.isEmpty) = true
    · rw [if_pos h1] at hit
      exact ih items hinv it hit
    · rw [if_neg h1] at hit
      by_cases h2 : (!(containsSub ("活动".data) (norm a.text)
          || containsSub ("工坊".data) (norm a.text)
          || containsSub ("迎新".data) (norm a.text))) = true
      · rw [if_pos h2] at hit
        exact ih items hinv it hit
      · rw [if_neg h2] at hit
        generalize (if a.href.head? = some '/'
          then "https://www.gdmuseum.com".data ++ a.href else a.href) = href at hit
        by_cases h3 : (!(("http".data).isPrefixOf href)) = true
        · rw [if_pos h3] at hit
          exact ih items hinv it hit
        · rw [if_neg h3] at hit
          by_cases h4 : looks_bad (norm a.text) = true
          · rw [if_pos h4] at hit
            exact ih items hinv it hit
          · have h4b : looks_bad (norm a.text) = false := by
              cases hh : looks_bad (norm a.text)
              · rfl
              · exact absurd hh h4
            rw [if_neg h4] at hit
            have hname : norm a.text ≠ [] := by
              intro hc
              apply h1
              rw [hc]
              rfl
            have hnew : ∀ x ∈ items ++ [gdHomeItem (norm a.text) href], aggKeep x = true := by
              intro x hx
              rcases List.mem_append.mp hx with hx1 | hx2
              · exact hinv x hx1
              · rw [List.mem_singleton.mp hx2]
                exact aggKeep_of _ hname h4b
            by_cases h5 : limit ≤ (items ++ [gdHomeItem (norm a.text) href]).length
            · rw [if_pos h5] at hit
              exact hnew it hit
            · rw [if_neg h5] at hit
              exact ih _ hnew it hit

theorem gdLoop2_good (limit2 : Nat) :
    ∀ (anchors : List Anchor) (items : List Item),
      (∀ it ∈ items, aggKeep it = true) →
      ∀ it ∈ gdLoop2 limit2 items anchors, aggKeep it = true := by
  intro anchors
  induction anchors with
  | nil =>
    intro items hinv it hit
    rw [gdLoop2] at hit
    exact hinv it hit
  | cons a rest ih =>
    intro items hinv it hit
    simp only [gdLoop2] at hit
    by_cases h1 : ((norm a.text).isEmpty || a.href.isEmpty) = true
    · rw [if_pos h1] at hit
      exact ih items hinv it hit
    · rw [if_neg h1] at hit
      by_cases h2 : looks_bad (norm a.text) = true
      · rw [if_pos h2] at hit
        exact ih items hinv it hit
      · have h2b : looks_bad (norm a.text) = false := by
          cases hh : looks_bad (norm a.text)
          · rfl
          · exact absurd hh h2
        rw [if_neg h2] at hit
        generalize (if a.href.head? = some '/'
          then "https://www.gdmuseum.com".data ++ a.href else a.href) = href at hit
        by_cases h3 : (!(containsSub ("gdmuseum.com".data) href)) = true
        · rw [if_pos h3] at hit
          exact ih items hinv it hit
        · rw [if_neg h3] at hit
          by_cases h4 : (norm a.text).length < 6
          · rw [if_pos h4] at hit
            exact ih items hinv it hit
          · rw [if_neg h4] at hit
            have hname : norm a.text ≠ [] := by
              intro hc
              apply h1
              rw [hc]
              rfl
            have hnew : ∀ x ∈ items ++ [gdListItem (norm a.text) href], aggKeep x = true := by
              intro x hx
              rcases List.mem_append.mp hx with hx1 | hx2
              · exact hinv x hx1
              · rw [List.mem_singleton.mp hx2]
                exact aggKeep_of _ hname h2b
            by_cases h5 : limit2 ≤ (items ++ [gdListItem (norm a.text) href]).length
            · rw [if_pos h5] at hit
              exact hnew it hit
            · rw [if_neg h5] at hit
              exact ih _ hnew it hit

theorem parse_gd_good (env : Env) (limit : Nat) :
    ∀ it ∈ parse_gdmuseum_activities env limit, aggKeep it = true := by
  intro it hit
  unfold parse_gdmuseum_activities at hit
  cases h1 : env.fetchHtml GDMUSEUM_HOME with
  | none =>
    rw [h1] at hit
    cases h2 : env.fetchHtml GDMUSEUM_ACTIVITY_LIST with
    | none =>
      rw [h2] at hit
      simp at hit
    | some p2 =>
      rw [h2] at hit
      exact gdLoop2_good _ _ [] (by intro x hx; simp at hx) it hit
  | some p1 =>
    rw [h1] at hit
    cases h2 : env.fetchHtml GDMUSEUM_ACTIVITY_LIST with
    | none =>
      rw [h2] at hit
      exact gdLoop1_good _ _ [] (by intro x hx; simp at hx) it hit
    | some p2 =>
      rw [h2] at hit
      exact gdLoop2_good _ _ _ (gdLoop1_good _ _ [] (by intro x hx; simp at hx)) it hit

theorem gzLoop_good (url source : List Char) (limit : Nat) :
    ∀ (anchors : List Anchor) (items : List Item),
      (∀ it ∈ items, aggKeep it = true) →
      ∀ it ∈ gzLoop url source limit items anchors, aggKeep it = true := by
  intro anchors
  induction anchors with
  | nil =>
    intro items hinv it hit
    rw [gzLoop] at hit
    exact hinv it hit
  | cons a rest ih =>
    intro items hinv it hit
    simp only [gzLoop] at hit
    by_cases h1 : (norm a.text).isEmpty = true
    · rw [if_pos h1] at hit
      exact ih items hinv it hit
    · rw [if_neg h1] at hit
      by_cases h2 : (norm a.text).length < 6
      · rw [if_pos h2] at hit
        exact ih items hinv it hit
      · rw [if_neg h2] at hit
        by_cases h3 : (containsSub ("首页".data) (norm a.text)
            || containsSub ("概况".data) (norm a.text)
            || containsSub ("动态".data) (norm a.text)) = true
        · rw [if_pos h3] at hit
          exact ih items hinv it hit
        · rw [if_neg h3] at hit
          by_cases h4 : looks_bad (norm a.text) = true
          · rw [if_pos h4] at hit
            exact ih items hinv it hit
          · have h4b : looks_bad (norm a.text) = false := by
              cases hh : looks_bad (norm a.text)
              · rfl
              · exact absurd hh h4
            rw [if_neg h4] at hit
            have hname : norm a.text ≠ [] := by
              intro hc
              apply h1
              rw [hc]
              rfl
            have hnew : ∀ x ∈ items ++ [gzItem (norm a.text) (gzResolveLink url a.href) source],
                aggKeep x = true := by
              intro x hx
              rcases List.mem_append.mp hx with hx1 | hx2
              · exact hinv x hx1
              · rw [List.mem_singleton.mp hx2]
                exact aggKeep_of _ hname h4b
            by_cases h5 : limit ≤ (items ++ [gzItem (norm a.text) (gzResolveLink url a.href) source]).length
            · rw [if_pos h5] at hit
              exact hnew it hit
            · rw [if_neg h5] at hit
              exact ih _ hnew it hit

theorem parse_gz_good (env : Env) (limit : Nat) :
    ∀ it ∈ parse_gzmuseum_exhibitions env limit, aggKeep it = true := by
  intro it hit
  unfold parse_gzmuseum_exhibitions gzmuseumEndpoints at hit
  simp only [List.foldl_cons, List.foldl_nil] at hit
  cases h1 : env.fetchHtml GZMUSEUM_EXHIBITION_LIST with
  | none =>
    rw [h1] at hit
    cases h2 : env.fetchHtml GZMUSEUM_EXHIBITION_PRE with
    | none =>
      rw [h2] at hit
      simp at hit
    | some p2 =>
      rw [h2] at hit
      exact gzLoop_good _ _ _ _ [] (by intro x hx; simp at hx) it hit
  | some p1 =>
    rw [h1] at hit
    cases h2 : env.fetchHtml GZMUSEUM_EXHIBITION_PRE with
    | none =>
      rw [h2] at hit
      exact gzLoop_good _ _ _ _ [] (by intro x hx; simp at hx) it hit
    | some p2 =>
      rw [h2] at hit
      exact gzLoop_good _ _ _ p2.anchors _
        (gzLoop_good _ _ _ p1.anchors [] (by intro x hx; simp at hx)) it hit

/-- C5 counterexample: the wglj schedule-index adapter builds its index
entries without any `looks_bad` check, so a hard-keyword title (here
`网红打卡活动`, which passes the index keyword gate via `活动`) is emitted
at ingestion and then rejected by the aggregation-boundary filter: the
second application of the filter does reject something. -/
theorem C5_cex_wglj_unfiltered :
    parse_wglj_schedule_index envWgljCex 25
      = [wgljItem ("网红打卡活动".data) ("https://wglj.gz.gov.cn/a/doc.html".data)]
    ∧ looks_bad ("网红打卡活动".data) = true
    ∧ mainItemsRaw envWgljCex
        = [wgljItem ("网红打卡活动".data) ("https://wglj.gz.gov.cn/a/doc.html".data)]
    ∧ mainFilter (mainItemsRaw envWgljCex) = []
    ∧ mainFinalItems envWgljCex = [] := by
  refine ⟨by decide, by decide, by decide, by decide, by decide⟩

/-- C5 amended: the Content Filter is applied at ingestion in the Douban,
Guangdong-Museum and Guangzhou-Museum adapters (and on bulletin titles),
but not to the wglj index entries; for the items of the three filtering
adapters the aggregation-level filter rejects nothing. -/
theorem C5_amended_second_filter_transparent (env : Env) :
    mainFilter ((DOUBAN_PAGES.map (fun p => parse_douban_list env p.1 p.2 8 10)).flatten
        ++ parse_gdmuseum_activities env 25
        ++ parse_gzmuseum_exhibitions env 20)
      = (DOUBAN_PAGES.map (fun p => parse_douban_list env p.1 p.2 8 10)).flatten
        ++ parse_gdmuseum_activities env 25
        ++ parse_gzmuseum_exhibitions env 20 := by
  unfold mainFilter
  rw [List.filter_eq_self]
  intro it hit
  rcases List.mem_append.mp hit with hit1 | hit2
  · rcases List.mem_append.mp hit1 with hit11 | hit12
    · obtain ⟨l, hl, hitl⟩ := List.mem_flatten.mp hit11
      obtain ⟨p, _, rfl⟩ := List.mem_map.mp hl
      exact parse_douban_good env p.1 p.2 8 10 it hitl
    · exact parse_gd_good env 25 it hit12
  · exact parse_gz_good env 20 it hit2

/-! ### Failure isolation -/

theorem doubanLoop_fail (env : Env) (cat base : List Char)
    (hfail : ∀ i : Nat, env.fetchHtml (doubanUrl base (i * 10)) = none) :
    ∀ (n i : Nat), doubanLoop env cat base 10 i n = [] := by
  intro n
  induction n with
  | zero => intro i; rfl
  | succ n ih =>
    intro i
    rw [doubanLoop, hfail i]
    rw [ih (i + 1)]
    rfl

/-- C6: if the fetch of every page of one configured endpoint (here the
Douban week-music category) raises a transport error, the error is
absorbed at the adapter boundary: that endpoint contributes zero items,
the combined adapter output is exactly the concatenation of the other
endpoints' normal yields (so its length is the sum of theirs), and the
Dataset is still produced from it by the usual filter/dedupe/cap. -/
theorem C6_endpoint_failure_isolated (env : Env)
    (hfail : ∀ i : Nat,
      env.fetchHtml (doubanUrl (DOUBAN_BASE ++ "week-music".data) (i * 10)) = none) :
    parse_douban_list env ("douban/week-music".data) (DOUBAN_BASE ++ "week-music".data) 8 10 = []
    ∧ mainItemsRaw env
        = parse_wglj_schedule_index env 25
          ++ (parse_douban_list env ("douban/week-all".data) (DOUBAN_BASE ++ "week-all".data) 8 10
            ++ (parse_douban_list env ("douban/week-drama".data) (DOUBAN_BASE ++ "week-drama".data) 8 10
              ++ (parse_douban_list env ("douban/week-exhibition".data) (DOUBAN_BASE ++ "week-exhibition".data) 8 10
                ++ parse_douban_list env ("douban/week-course".data) (DOUBAN_BASE ++ "week-course".data) 8 10)))
          ++ parse_gdmuseum_activities env 25
          ++ parse_gzmuseum_exhibitions env 20
    ∧ (mainItemsRaw env).length
        = (parse_wglj_schedule_index env 25).length
          + (parse_douban_list env ("douban/week-all".data) (DOUBAN_BASE ++ "week-all".data) 8 10).length
          + (parse_douban_list env ("douban/week-drama".data) (DOUBAN_BASE ++ "week-drama".data) 8 10).length
          + (parse_douban_list env ("douban/week-exhibition".data) (DOUBAN_BASE ++ "week-exhibition".data) 8 10).length
          + (parse_douban_list env ("douban/week-course".data) (DOUBAN_BASE ++ "week-course".data) 8 10).length
          + (parse_gdmuseum_activities env 25).length
          + (parse_gzmuseum_exhibitions env 20).length
    ∧ (mainDataset env).items = (dedupe (mainFilter (mainItemsRaw env))).take MAX_ITEMS := by
  have hmusic : parse_douban_list env ("douban/week-music".data)
      (DOUBAN_BASE ++ "week-music".data) 8 10 = [] :=
    doubanLoop_fail env _ _ hfail 8 0
  have hmain : mainItemsRaw env
      = parse_wglj_schedule_index env 25
        ++ (parse_douban_list env ("douban/week-all".data) (DOUBAN_BASE ++ "week-all".data) 8 10
          ++ (parse_douban_list env ("douban/week-drama".data) (DOUBAN_BASE ++ "week-drama".data) 8 10
            ++ (parse_douban_list env ("douban/week-exhibition".data) (DOUBAN_BASE ++ "week-exhibition".data) 8 10
              ++ parse_douban_list env ("douban/week-course".data) (DOUBAN_BASE ++ "week-course".data) 8 10)))
        ++ parse_gdmuseum_activities env 25
        ++ parse_gzmuseum_exhibitions env 20 := by
    unfold mainItemsRaw DOUBAN_PAGES
    simp [hmusic]
  refine ⟨hmusic, hmain, ?_, rfl⟩
  rw [hmain]
  simp [List.length_append]
  omega

/-- No week-music page URL is the schedule-index URL: their ninth
characters differ (`g` vs `w`), and every page URL extends the category
base. -/
theorem musicUrl_ne_wglj (k : Nat) :
    doubanUrl (DOUBAN_BASE ++ "week-music".data) k ≠ WGLJ_SCHEDULE_INDEX := by
  intro h
  have h8 : (doubanUrl (DOUBAN_BASE ++ "week-music".data) k)[8]? = some 'g' := by
    unfold doubanUrl
    by_cases hk : k = 0
    · rw [if_pos hk]
      decide
    · rw [if_neg hk]
      rw [List.getElem?_append_left (by decide)]
      decide
  rw [h] at h8
  have h8w : (WGLJ_SCHEDULE_INDEX)[8]? = some 'w' := by decide
  rw [h8w] at h8
  simp at h8

theorem envC6Witness_music_fails (i : Nat) :
    envC6Witness.fetchHtml (doubanUrl (DOUBAN_BASE ++ "week-music".data) (i * 10)) = none := by
  simp only [envC6Witness]
  rw [if_neg (musicUrl_ne_wglj (i * 10))]

/-- Witness for C6 in a run where the schedule index yields an item but
every Douban week-music page fetch raises. -/
theorem C6_endpoint_failure_isolated_witness :
    (∀ i : Nat, envC6Witness.fetchHtml
        (doubanUrl (DOUBAN_BASE ++ "week-music".data) (i * 10)) = none)
    ∧ (parse_douban_list envC6Witness ("douban/week-music".data)
          (DOUBAN_BASE ++ "week-music".data) 8 10 = []
      ∧ mainItemsRaw envC6Witness
          = parse_wglj_schedule_index envC6Witness 25
            ++ (parse_douban_list envC6Witness ("douban/week-all".data) (DOUBAN_BASE ++ "week-all".data) 8 10
              ++ (parse_douban_list envC6Witness ("douban/week-drama".data) (DOUBAN_BASE ++ "week-drama".data) 8 10
                ++ (parse_douban_list envC6Witness ("douban/week-exhibition".data) (DOUBAN_BASE ++ "week-exhibition".data) 8 10
                  ++ parse_douban_list envC6Witness ("douban/week-course".data) (DOUBAN_BASE ++ "week-course".data) 8 10)))
            ++ parse_gdmuseum_activities envC6Witness 25
            ++ parse_gzmuseum_exhibitions envC6Witness 20
      ∧ (mainItemsRaw envC6Witness).length
          = (parse_wglj_schedule_index envC6Witness 25).length
            + (parse_douban_list envC6Witness ("douban/week-all".data) (DOUBAN_BASE ++ "week-all".data) 8 10).length
            + (parse_douban_list envC6Witness ("douban/week-drama".data) (DOUBAN_BASE ++ "week-drama".data) 8 10).length
            + (parse_douban_list envC6Witness ("douban/week-exhibition".data) (DOUBAN_BASE ++ "week-exhibition".data) 8 10).length
            + (parse_douban_list envC6Witness ("douban/week-course".data) (DOUBAN_BASE ++ "week-course".data) 8 10).length
            + (parse_gdmuseum_activities envC6Witness 25).length
            + (parse_gzmuseum_exhibitions envC6Witness 20).length
      ∧ (mainDataset envC6Witness).items
          = (dedupe (mainFilter (mainItemsRaw envC6Witness))).take MAX_ITEMS) :=
  ⟨envC6Witness_music_fails,
    C6_endpoint_failure_isolated envC6Witness envC6Witness_music_fails⟩

/-! ### Segmentation on the synthetic bulletin -/

/-- C2 counterexample: on the spec's two-block synthetic bulletin the
`area` hints are not `文化宫` and `大剧院` — the location capture
`[^。；;]{4,40}` runs to the end of each block. -/
theorem C2_cex_area_values :
    (split_events_from_pdf_text synthBulletin synthPdfUrl).map (fun it => it.area)
      ≠ ["文化宫".data, "大剧院".data] := by
  decide

/-- C2 amended: the engine yields exactly two items with the claimed
`date` and `timeHint` values, but the `area` values are the full
post-label spans `文化宫 2025年3月5日 10:00-12:00 春季手工坊` and
`大剧院 交响音乐会` (up to 40 characters, nothing terminates the capture). -/
theorem C2_amended_synthetic_eval :
    (split_events_from_pdf_text synthBulletin synthPdfUrl).map
        (fun it => (it.date, it.timeHint, it.area))
      = [("2025年3月5日".data, "10:00-12:00".data,
          "文化宫 2025年3月5日 10:00-12:00 春季手工坊".data),
         ("2025年4月1日".data, "19:30-21:00".data, "大剧院 交响音乐会".data)] := by
  decide

/-! ### Links and cost on concrete runs -/

/-- C8: evaluation at the failing input — a Douban page whose event
anchor uses a page-relative href.  The final dataset's single item
carries the raw relative `link` `/event/12345`. -/
theorem C8_relative_link_emitted :
    (mainDataset envDoubanRel).items.map (fun it => it.link) = ["/event/12345".data]
    ∧ (("http".data).isPrefixOf ("/event/12345".data)) = false := by
  refine ⟨by decide, by decide⟩

/-- C9: evaluation at the failing input — a Douban item whose source text
contains the price `200元` is emitted with the constant cost `mid`, while
the script's own price bucketing (`guess_cost`, never called) maps that
text to `high`. -/
theorem C9_cost_ignores_price :
    (mainDataset envDoubanPrice).items.map (fun it => (it.name, it.cost))
      = [("交响音乐会 票价 200元".data, "mid".data)]
    ∧ guess_cost ("交响音乐会 票价 200元".data) = "high".data
    ∧ ("mid".data : List Char) ≠ "high".data := by
  refine ⟨by decide, by decide, by decide⟩

/-- C10: in every run the dataset's `meta.sources` is exactly the nine
URLs (schedule index, five Douban categories, the two Guangdong-Museum
URLs, the Guangzhou-Museum exhibition list) in that order, with the
literal values the script defines (including the truncated `s://`
constants); the exhibition-preview URL is one of the two endpoints the
Guangzhou-Museum adapter iterates over, yet never appears in
`meta.sources`. -/
theorem C10_meta_sources (env : Env) :
    (mainDataset env).meta.sources
      = ["https://wglj.gz.gov.cn/ztmb/gzhyn/hdpq/mindex.html".data,
         "https://guangzhou.douban.com/events/week-all".data,
         "https://guangzhou.douban.com/events/week-music".data,
         "https://guangzhou.douban.com/events/week-drama".data,
         "https://guangzhou.douban.com/events/week-exhibition".data,
         "https://guangzhou.douban.com/events/week-course".data,
         "s://www.gdmuseum.com/".data,
         "s://www.gdmuseum.com/col108/list".data,
         "s://www.guangzhoumuseum.cn/website_cn/Web/Exhibition/Exhibition.aspx".data]
    ∧ GZMUSEUM_EXHIBITION_PRE ∉ (mainDataset env).meta.sources
    ∧ GZMUSEUM_EXHIBITION_PRE ∈ gzmuseumEndpoints.map Prod.fst := by
  refine ⟨?_, ?_, ?_⟩
  · show metaSources = _
    decide
  · show GZMUSEUM_EXHIBITION_PRE ∉ metaSources
    decide
  · decide

end UpdateData
